import Mathlib
/-!
Verification of the EldersVR CLI core against its specification.

The definitions below are a shallow embedding of the Python source
(`eldersvr_cli/core/content_manager.py`, `eldersvr_cli/core/adb_manager.py`,
`eldersvr_cli/cli.py`).  External effects (the local filesystem, the HTTP
client, the device bridge, the interactive prompt) are passed in as explicit
oracles, and functions that the source drives by side effects are embedded as
pure functions that additionally return the list of observable events they
perform.
-/

namespace EldersVR

/-! ## Download engine data model (`content_manager.py`) -/
/-- The `file_type` tag of a download task
(`'videos_high' | 'videos_low' | 'thumbnails' | 'tag_images'`). -/
inductive FileType where
  | videos_high
  | videos_low
  | thumbnails
  | tag_images
deriving DecidableEq, Repr

/-- One entry of `data["videos"]` as consumed by `download_all_assets`
(`fileUrl`, `fileKey`, `fileUrlLow`, `fileKeyLow`, `thumbnailUrl`,
`thumbnailKey`). -/
structure Video where
  fileUrl : String
  fileKey : String
  fileUrlLow : String
  fileKeyLow : String
  thumbnailUrl : String
  thumbnailKey : String
deriving DecidableEq, Repr

/-- One entry of `data["tags"]`.  `imageUrl = none` models a tag dict without
the `"imageUrl"` key; `some s` a tag carrying the key with value `s`. -/
structure Tag where
  imageUrl : Option String
deriving DecidableEq, Repr

/-- `"imageUrl" in tag and tag["imageUrl"]`: the key is present and its value
is truthy (a non-empty string). -/
def Tag.hasImage (t : Tag) : Bool :=
  match t.imageUrl with
  | some s => !s.isEmpty
  | none => false

/-- The manifest data dictionary (`new_data.json`): `videos` and `tags`. -/
structure ManifestData where
  videos : List Video
  tags : List Tag
deriving DecidableEq, Repr

/-- The `quality` argument of `download_all_assets`. -/
inductive Quality where
  | high
  | low
  | both
deriving DecidableEq, Repr

/-- A download task dict `{url, local_path, file_type}`. -/
structure DownloadTask where
  url : String
  local_path : String
  file_type : FileType
deriving DecidableEq, Repr

/-- The tasks emitted for one video by the loop in `download_all_assets`:
high-res video if `quality in ['high', 'both']`, low-res video if
`quality in ['low', 'both']`, and always the thumbnail. -/
def videoTasks (videosDir imagesDir : String) (quality : Quality) (v : Video) :
    List DownloadTask :=
  (if quality = .high ∨ quality = .both then
    [⟨v.fileUrl, videosDir ++ "/" ++ v.fileKey, .videos_high⟩] else []) ++
  (if quality = .low ∨ quality = .both then
    [⟨v.fileUrlLow, videosDir ++ "/" ++ v.fileKeyLow, .videos_low⟩] else []) ++
  [⟨v.thumbnailUrl, imagesDir ++ "/" ++ v.thumbnailKey, .thumbnails⟩]

/-- The part of a path after its last `/`: models both `os.path.basename`
and Python's `url.split("/")[-1]` for the single-character separator `/`. -/
def basename (p : String) : String :=
  ⟨p.data.foldl (fun acc c => if c = '/' then [] else acc.concat c) []⟩

/-- The task emitted for one tag: one `tag_images` task when the tag has a
non-empty `imageUrl`, whose filename is the last `/`-separated component of
the url (`tag["imageUrl"].split("/")[-1]`). -/
def tagTasks (imagesDir : String) (t : Tag) : List DownloadTask :=
  match t.imageUrl with
  | some s =>
      if !s.isEmpty then
        [⟨s, imagesDir ++ "/" ++ basename s, .tag_images⟩]
      else []
  | none => []

/-- The full task list prepared by `download_all_assets`: video tasks per
video (in manifest order), then tag-image tasks per tag. -/
def buildDownloadTasks (videosDir imagesDir : String) (data : ManifestData)
    (quality : Quality) : List DownloadTask :=
  (data.videos.flatMap (videoTasks videosDir imagesDir quality)) ++
  (data.tags.flatMap (tagTasks imagesDir))

/-- The task list prepared by `download_images_only`: one thumbnail task per
video, then tag-image tasks per tag. -/
def buildImageTasks (imagesDir : String) (data : ManifestData) :
    List DownloadTask :=
  (data.videos.map (fun v =>
    ⟨v.thumbnailUrl, imagesDir ++ "/" ++ v.thumbnailKey, .thumbnails⟩)) ++
  (data.tags.flatMap (tagTasks imagesDir))

/-! ## Existing-file pre-filter and download statistics -/
/-- The `download_stats` dictionary. -/
structure DownloadStats where
  videos_high : Nat
  videos_low : Nat
  thumbnails : Nat
  tag_images : Nat
  failed_downloads : Nat
  total_files : Nat
  completed_files : Nat
  skipped_files : Nat
deriving DecidableEq, Repr

/-- The all-zero stats dictionary built at the top of `download_all_assets`. -/
def initStats : DownloadStats := ⟨0, 0, 0, 0, 0, 0, 0, 0⟩

/-- `download_stats[file_type] += 1`. -/
def DownloadStats.bump (s : DownloadStats) (ft : FileType) : DownloadStats :=
  match ft with
  | .videos_high => { s with videos_high := s.videos_high + 1 }
  | .videos_low => { s with videos_low := s.videos_low + 1 }
  | .thumbnails => { s with thumbnails := s.thumbnails + 1 }
  | .tag_images => { s with tag_images := s.tag_images + 1 }

/-- The per-task stats update both download loops perform:
`completed_files += 1`, then on success `stats[file_type] += 1`,
on failure `failed_downloads += 1`. -/
def statsStep (ft : FileType) (succ : Bool) (s : DownloadStats) : DownloadStats :=
  let s1 := { s with completed_files := s.completed_files + 1 }
  if succ then s1.bump ft
  else { s1 with failed_downloads := s1.failed_downloads + 1 }

/-- The user's answer at the existing-files prompt of `check_existing_files`
(`o` / `s` / `c`).  It is consulted only when at least one file pre-exists. -/
inductive ExistChoice where
  | override
  | skip
  | cancel
deriving DecidableEq, Repr

/-- `check_existing_files`: split the task list by `os.path.exists` on
`local_path`; when some files pre-exist, apply the user's choice:
`override` keeps the full list, `skip` keeps only the non-existing tasks and
reports the basenames of the rest, `cancel` returns an empty list. -/
def checkExistingFiles (existsOnDisk : String → Bool) (choice : ExistChoice)
    (tasks : List DownloadTask) : List DownloadTask × List String :=
  let tasksToDownload := tasks.filter (fun t => !existsOnDisk t.local_path)
  let existing := tasks.filter (fun t => existsOnDisk t.local_path)
  if existing.isEmpty then (tasks, [])
  else
    match choice with
    | .override => (tasks, [])
    | .skip =>
        (tasksToDownload,
          (tasks.filter (fun t => !decide (t ∈ tasksToDownload))).map
            (fun t => basename t.local_path))
    | .cancel => ([], [])

/-- `download_with_progress` / the `future.result()` handler of
`_download_assets_parallel`: an exception raised while handling a task
(modelled as `.error`) is caught and recorded as a plain failure. -/
def parallelTaskResult (outcome : Except String Bool) : Bool :=
  match outcome with
  | .ok b => b
  | .error _ => false

/-- The stats fold of `_download_assets_parallel`.  `oracle t` is the outcome
of handling task `t`: `.ok b` the boolean result of `download_file`, `.error`
an exception escaping the per-task handler body.  `as_completed` yields
futures in completion order; with a single worker (`max_workers = 1`) tasks
run one at a time in submission order, so the fold processes the list in
order. -/
def downloadAssetsParallel (oracle : DownloadTask → Except String Bool)
    (tasks : List DownloadTask) (stats : DownloadStats) : DownloadStats :=
  tasks.foldl (fun st t => statsStep t.file_type (parallelTaskResult (oracle t)) st) stats

/-- The stats fold of `_download_assets_sequential`: one `download_file` call
per task in list order, updating the same counters. -/
def downloadAssetsSequential (oracle : DownloadTask → Bool)
    (tasks : List DownloadTask) (stats : DownloadStats) : DownloadStats :=
  tasks.foldl (fun st t => statsStep t.file_type (oracle t) st) stats

/-- The result of a download run: the returned stats plus the list of tasks
that were actually handed to a download loop. -/
structure DownloadRun where
  stats : DownloadStats
  attempted : List DownloadTask
deriving DecidableEq, Repr

/-- The shared tail of `download_all_assets` and `download_images_only`
after `check_existing_files`: return early when nothing is left, else record
the post-filter totals and run the remaining tasks through the parallel or
sequential loop. -/
def downloadRunExec (parallel : Bool) (oracle : DownloadTask → Bool)
    (tasks toDownload : List DownloadTask) (skipped : List String) :
    DownloadRun :=
  if toDownload.isEmpty then
    { stats := { initStats with
        total_files := tasks.length, skipped_files := skipped.length },
      attempted := [] }
  else
    let stats0 : DownloadStats := { initStats with
        total_files := toDownload.length, skipped_files := skipped.length }
    if parallel && decide (toDownload.length > 1) then
      { stats := downloadAssetsParallel (fun t => .ok (oracle t)) toDownload stats0,
        attempted := toDownload }
    else
      { stats := downloadAssetsSequential oracle toDownload stats0,
        attempted := toDownload }

/-- `download_all_assets`: expand the manifest, run the existing-file check,
and execute what remains. -/
def downloadAllAssets (videosDir imagesDir : String) (data : ManifestData)
    (quality : Quality) (parallel : Bool) (existsOnDisk : String → Bool)
    (choice : ExistChoice) (oracle : DownloadTask → Bool) : DownloadRun :=
  let tasks := buildDownloadTasks videosDir imagesDir data quality
  let checked := checkExistingFiles existsOnDisk choice tasks
  downloadRunExec parallel oracle tasks checked.1 checked.2

/-- `download_images_only`: same flow over the image-only task list. -/
def downloadImagesOnly (imagesDir : String) (data : ManifestData)
    (parallel : Bool) (existsOnDisk : String → Bool) (choice : ExistChoice)
    (oracle : DownloadTask → Bool) : DownloadRun :=
  let tasks := buildImageTasks imagesDir data
  let checked := checkExistingFiles existsOnDisk choice tasks
  downloadRunExec parallel oracle tasks checked.1 checked.2

/-! ## `download_file` retry loop and config validation -/
/-- The body of `download_file`'s `for attempt in range(retry_attempts)`
loop, run over the list of remaining attempt indices.  `fails a = true`
models attempt `a` raising a connection or I/O error
(`requests.RequestException`, `OSError`, `IOError`); otherwise the attempt
performs the HTTP request, streams the body to disk and returns `True`.
Returns `(result, httpAttempts, sleeps)` where `httpAttempts` counts loop
bodies entered (each makes exactly one HTTP request and opens the local
file) and `sleeps` counts the `time.sleep(self.retry_delay)` calls made
between consecutive attempts. -/
def downloadFileLoop (retryAttempts : Nat) (fails : Nat → Bool) :
    List Nat → Bool × Nat × Nat
  | [] => (false, 0, 0)
  | a :: rest =>
      if fails a then
        if a < retryAttempts - 1 then
          let r := downloadFileLoop retryAttempts fails rest
          (r.1, r.2.1 + 1, r.2.2 + 1)
        else (false, 1, 0)
      else (true, 1, 0)

/-- `download_file` with the configured `retry_attempts`: run the loop over
`range(retry_attempts)`; falling out of the loop returns `False`. -/
def downloadFileRun (retryAttempts : Nat) (fails : Nat → Bool) :
    Bool × Nat × Nat :=
  downloadFileLoop retryAttempts fails (List.range retryAttempts)

/-- `dl.get(key) is not None and dl[key] < bound`. -/
def optLt (x : Option Int) (bound : Int) : Bool :=
  match x with
  | some v => v < bound
  | none => false

/-- The download-section checks of `_validate_config` (`cli.py`): each
configured value that is present (`some`) and out of range contributes one
issue string. -/
def validateDownloadSettings (maxConc timeout retryAttempts : Option Int) :
    List String :=
  (if optLt maxConc 1 then ["max_concurrent_downloads must be >= 1"] else []) ++
  (if optLt timeout 1 then ["download timeout must be >= 1"] else []) ++
  (if optLt retryAttempts 0 then ["retry_attempts must be >= 0"] else [])

/-- `cmd_download_videos` result code after a completed engine run: `1` when
`download_stats['failed_downloads'] > 0`, else `0`. -/
def cmdDownloadVideosExit (stats : DownloadStats) : Nat :=
  if stats.failed_downloads > 0 then 1 else 0

/-! ## String predicates used by the transfer side

Python's `str.startswith` / `str.endswith` / `in` / `str.upper` are embedded
as character-list operations so that they evaluate inside the kernel. -/
/-- `s.startswith(p)`. -/
def strStartsWith (s p : String) : Bool := p.data.isPrefixOf s.data

/-- `s.endswith(p)`. -/
def strEndsWith (s p : String) : Bool := p.data.isSuffixOf s.data

/-- `s.upper()` (the source only applies it to ASCII extension names). -/
def strUpper (s : String) : String := ⟨s.data.map Char.toUpper⟩

/-- `s.lower()` (the source only applies it to ASCII filenames). -/
def strLower (s : String) : String := ⟨s.data.map Char.toLower⟩

/-- `sub in s` on character lists: some tail of `s` starts with `sub`. -/
def listContainsSub (sub : List Char) : List Char → Bool
  | [] => sub.isEmpty
  | c :: rest => sub.isPrefixOf (c :: rest) || listContainsSub sub rest

/-- Python's substring test `sub in s`. -/
def strContainsSub (s sub : String) : Bool := listContainsSub sub.data s.data

/-! ## Storage resolver (`adb_manager.py`) -/
/-- The mutable path triple of `ADBManager` (`eldersvr_path`, `video_path`,
`image_path`). -/
structure AdbPaths where
  eldersvr_path : String
  video_path : String
  image_path : String
deriving DecidableEq, Repr

/-- The constructor default `device_path`. -/
def defaultDevicePath : String :=
  "/storage/emulated/0/Android/data/com.q42.eldersvr/files/EldersVR"

/-- `ADBManager.__init__`: derive `video_path` and `image_path` from the
base path. -/
def initAdbPaths (devicePath : String) : AdbPaths :=
  ⟨devicePath, devicePath ++ "/Video", devicePath ++ "/Image"⟩

/-- `self.fallback_paths`. -/
def fallbackPaths : List String :=
  ["/storage/emulated/0/Android/data",
   "/storage/emulated/0/Documents/EldersVR",
   "/sdcard/EldersVR",
   "/storage/sdcard0/EldersVR"]

/-- `_try_fallback_paths`: for an `Android/data` fallback the app-specific
directory is appended, otherwise the path is used as is. -/
def fallbackTestPath (p : String) : String :=
  if strContainsSub p "Android/data" then
    p ++ "/com.q42.eldersvr/files/EldersVR"
  else p

/-- The device-side observations `verify_storage_access` depends on.
`dirExists p` / `writable p` are the exit status of `test -d p` /
`test -w p`; `rootAvailable` is the (cached) result of `check_root_access`;
`rootSetupOk` whether `_try_root_storage_setup` succeeds end to end
(root mkdir, chmod, and re-verified writability); `fallbackOk p` the exit
status of `mkdir -p p && test -w p`. -/
structure DeviceEnv where
  dirExists : String → Bool
  writable : String → Bool
  rootAvailable : Bool
  rootSetupOk : Bool
  fallbackOk : String → Bool

/-- The iteration of `_try_fallback_paths` over the fallback list: accept
the first path whose `mkdir -p` + writability test succeeds and mutate the
manager's three paths to it; fail leaving the paths unchanged. -/
def tryFallbackPathsGo (env : DeviceEnv) (st : AdbPaths) :
    List String → Bool × AdbPaths
  | [] => (false, st)
  | p :: rest =>
      if env.fallbackOk (fallbackTestPath p) then
        (true, ⟨fallbackTestPath p, fallbackTestPath p ++ "/Video",
                fallbackTestPath p ++ "/Image"⟩)
      else tryFallbackPathsGo env st rest

/-- `_try_fallback_paths`. -/
def tryFallbackPaths (env : DeviceEnv) (st : AdbPaths) : Bool × AdbPaths :=
  tryFallbackPathsGo env st fallbackPaths

/-- `verify_storage_access`: accept the primary path when it exists and is
writable; otherwise try root escalation (`check_root_access` then
`_try_root_storage_setup`, which keeps the primary path); otherwise fall
back to `_try_fallback_paths`. -/
def verifyStorageAccess (env : DeviceEnv) (st : AdbPaths) : Bool × AdbPaths :=
  if env.dirExists st.eldersvr_path && env.writable st.eldersvr_path then
    (true, st)
  else if env.rootAvailable && env.rootSetupOk then (true, st)
  else tryFallbackPaths env st

/-! ## Video push loop and role filters (`adb_manager.py`, `cli.py`) -/
/-- The master-side filter
`[f for f in os.listdir(videos_dir) if f.startswith('lowres_') and f.endswith('.mp4')]`. -/
def lowResFilter (listing : List String) : List String :=
  listing.filter (fun f => strStartsWith f "lowres_" && strEndsWith f ".mp4")

/-- The slave-side filter
`[f for f in os.listdir(videos_dir) if f.startswith('highres_') and f.endswith('.mp4')]`. -/
def highResFilter (listing : List String) : List String :=
  listing.filter (fun f => strStartsWith f "highres_" && strEndsWith f ".mp4")

/-- The loop of `_push_video_files` over the file list.  A file missing
locally is logged and skipped without a push attempt (`continue`); an
attempted push that fails — non-zero exit status or an exception — is
recorded and the loop continues with the next file.  Returns
`(success_count, attempted)` where `attempted` lists the files for which an
`adb push` was started, in order. -/
def pushVideoFilesGo (localExists pushOk : String → Bool) :
    List String → Nat × List String
  | [] => (0, [])
  | f :: rest =>
      if localExists f then
        ((if pushOk f then (pushVideoFilesGo localExists pushOk rest).1 + 1
          else (pushVideoFilesGo localExists pushOk rest).1),
         f :: (pushVideoFilesGo localExists pushOk rest).2)
      else pushVideoFilesGo localExists pushOk rest

/-- `_push_video_files`: returns `((success_count, len(file_list)),
attempted)`. -/
def pushVideoFiles (localExists pushOk : String → Bool)
    (fileList : List String) : (Nat × Nat) × List String :=
  (((pushVideoFilesGo localExists pushOk fileList).1, fileList.length),
   (pushVideoFilesGo localExists pushOk fileList).2)

/-- Modelled from the spec: the skip-aware `push_videos_filtered` that
`cli.py` calls with a trailing `files_to_skip` argument is missing from the
repository snapshot (the snapshot's `adb_manager.py` only defines the
variant without it).  Per spec section 4.3 step 5 the video push covers the
filtered subset *excluding skipped filenames* and its total excludes
user-skipped files; the loop itself is `_push_video_files` above. -/
def pushVideosFiltered (localExists pushOk : String → Bool)
    (fileList filesToSkip : List String) : (Nat × Nat) × List String :=
  pushVideoFiles localExists pushOk
    (fileList.filter (fun f => !decide (f ∈ filesToSkip)))

/-- Status of one asset class in the progress tracker. -/
inductive ClassStatus where
  | pending
  | in_progress
  | completed
  | failed
deriving DecidableEq, Repr

/-- The caller-side completion rule shared by both transfer functions:
`completed` iff `video_success == video_total`, else `failed`. -/
def videoPhaseResult (r : (Nat × Nat) × List String) :
    ClassStatus × Nat × Nat :=
  (if r.1.1 = r.1.2 then .completed else .failed, r.1)

/-- The video phase of `_transfer_to_master`: keep `lowres_*.mp4` files,
drop the user-skipped ones, push, and classify. -/
def masterVideoPhase (videosListing filesToSkip : List String)
    (localExists pushOk : String → Bool) : ClassStatus × Nat × Nat :=
  videoPhaseResult (pushVideosFiltered localExists pushOk
    ((lowResFilter videosListing).filter (fun f => !decide (f ∈ filesToSkip)))
    filesToSkip)

/-- The video phase of `_transfer_to_slave`: keep `highres_*.mp4` files
(the skip set is applied inside `push_videos_filtered`), push, classify. -/
def slaveVideoPhase (videosListing filesToSkip : List String)
    (localExists pushOk : String → Bool) : ClassStatus × Nat × Nat :=
  videoPhaseResult (pushVideosFiltered localExists pushOk
    (highResFilter videosListing) filesToSkip)

/-! ## Local file sets per role (`cli.py` 1016-1039 / 1177-1197) -/
/-- The image extension list used both by the transfer glob in `cli.py`
and by `push_images`. -/
def imageExts : List String := ["jpg", "jpeg", "png", "gif", "webp"]

/-- The image glob
`glob.glob(f"{images_dir}/*.{ext}") + glob.glob(f"{images_dir}/*.{ext.upper()}")`
over the extension list, with matches reported by basename. -/
def globImages (contents : List String) : List String :=
  imageExts.flatMap (fun ext =>
    contents.filter (fun f => strEndsWith f ("." ++ ext)) ++
    contents.filter (fun f => strEndsWith f ("." ++ strUpper ext)))

/-- `local_files_to_transfer` as built by `_transfer_to_master`: manifest
and credential files (unless `--videos-only`, and only when present
locally), then `lowres_*.mp4` videos, then the globbed image set (both
unless `--json-only` and only when the directory exists). -/
def masterLocalFiles (jsonExists credExists videosDirExists imagesDirExists : Bool)
    (videosListing imagesDirContents : List String)
    (videos_only json_only : Bool)
    (downloadsDir videosDir imagesDir : String) : List (String × String) :=
  (if videos_only then []
   else
     (if jsonExists then
        [("new_data.json", downloadsDir ++ "/new_data.json")] else []) ++
     (if credExists then
        [("credential.json", downloadsDir ++ "/credential.json")] else [])) ++
  (if !json_only && videosDirExists then
     (lowResFilter videosListing).map (fun f => (f, videosDir ++ "/" ++ f))
   else []) ++
  (if !json_only && imagesDirExists then
     (globImages imagesDirContents).map (fun f => (f, imagesDir ++ "/" ++ f))
   else [])

/-- `local_files_to_transfer` as built by `_transfer_to_slave`: the manifest
file only (no credential file), then `highres_*.mp4` videos, then the
globbed image set. -/
def slaveLocalFiles (jsonExists videosDirExists imagesDirExists : Bool)
    (videosListing imagesDirContents : List String)
    (videos_only json_only : Bool)
    (downloadsDir videosDir imagesDir : String) : List (String × String) :=
  (if videos_only then []
   else
     (if jsonExists then
        [("new_data.json", downloadsDir ++ "/new_data.json")] else [])) ++
  (if !json_only && videosDirExists then
     (highResFilter videosListing).map (fun f => (f, videosDir ++ "/" ++ f))
   else []) ++
  (if !json_only && imagesDirExists then
     (globImages imagesDirContents).map (fun f => (f, imagesDir ++ "/" ++ f))
   else [])

/-! ## Conflict detection and the per-device transfer session trace
(`cli.py` `_transfer_to_master` / `_transfer_to_slave`) -/
/-- The session-wide answer at the single conflict prompt
(`sa` / `oa` / `c`), consulted only when the conflict set is non-empty. -/
inductive ConflictChoice where
  | skipAll
  | overrideAll
  | cancel
deriving DecidableEq, Repr

/-- One entry of `conflict_check['conflicts']`. -/
structure ConflictEntry where
  filename : String
  local_size : Nat
  remote_size : Nat
deriving DecidableEq, Repr

/-- The result dict of `check_transfer_conflicts`. -/
structure ConflictReport where
  safe_files : List String
  conflicts : List ConflictEntry
deriving DecidableEq, Repr

/-- Modelled from the spec: `check_transfer_conflicts` is invoked on the ADB
manager by `cli.py` but its body is missing from the repository snapshot.
Per spec section 4.2, every local file is looked up remotely by name in the
corresponding target directory; a file is a conflict iff it exists remotely
— regardless of size equality (sizes are only reported) — and the files
that do not exist remotely are the safe files. -/
def checkTransferConflicts (remoteExists : String → Bool)
    (localSize remoteSize : String → Nat)
    (localFiles : List (String × String)) : ConflictReport :=
  { safe_files :=
      (localFiles.filter (fun fp => !remoteExists fp.1)).map Prod.fst,
    conflicts :=
      (localFiles.filter (fun fp => remoteExists fp.1)).map
        (fun fp => ⟨fp.1, localSize fp.1, remoteSize fp.1⟩) }

/-- Observable events of one device transfer session, in order. -/
inductive TransferEv where
  | conflictCheck (files : List String)
  | conflictPrompt (conflicts : List String)
  | pushJson
  | pushCredential
  | pushVideo (f : String)
  | pushImage (f : String)
deriving DecidableEq, Repr

/-- Whether an event is the conflict classification call. -/
def TransferEv.isCheck : TransferEv → Bool
  | .conflictCheck _ => true
  | _ => false

/-- Whether an event is the interactive conflict resolution prompt. -/
def TransferEv.isPrompt : TransferEv → Bool
  | .conflictPrompt _ => true
  | _ => false

/-- Device role. -/
inductive Role where
  | master
  | slave
deriving DecidableEq, Repr

/-- The environment one `_transfer_to_*` call observes: local filesystem
state, device state, the session's conflict answer, and push outcomes are
irrelevant to the event order so pushes are represented by their attempts. -/
structure TransferCtx where
  jsonExists : Bool
  credExists : Bool
  videosDirExists : Bool
  videosListing : List String
  imagesDirExists : Bool
  imagesDirContents : List String
  remoteExists : String → Bool
  localSize : String → Nat
  remoteSize : String → Nat
  dirCreateOk : Bool
  conflictChoice : ConflictChoice
  videoLocalExists : String → Bool

/-- The role-filtered video list (`lowres_*` for master, `highres_*` for
slave). -/
def roleVideoList (role : Role) (listing : List String) : List String :=
  match role with
  | .master => lowResFilter listing
  | .slave => highResFilter listing

/-- The `local_files_to_transfer` dict built for the role. -/
def roleLocalFiles (role : Role) (c : TransferCtx) (vo jo : Bool)
    (dD vD iD : String) : List (String × String) :=
  match role with
  | .master =>
      masterLocalFiles c.jsonExists c.credExists c.videosDirExists
        c.imagesDirExists c.videosListing c.imagesDirContents vo jo dD vD iD
  | .slave =>
      slaveLocalFiles c.jsonExists c.videosDirExists c.imagesDirExists
        c.videosListing c.imagesDirContents vo jo dD vD iD

/-- Video and image push attempts after conflict resolution: the
role-filtered videos minus the skip set that are present locally, then the
globbed images minus the skip set.  Per-file failures do not truncate the
sequence (both loops continue on error). -/
def videoImageEvents (role : Role) (c : TransferCtx) (jo : Bool)
    (skip : List String) : List TransferEv :=
  (if !jo && c.videosDirExists then
     (((roleVideoList role c.videosListing).filter
         (fun f => !decide (f ∈ skip))).filter
        (fun f => c.videoLocalExists f)).map TransferEv.pushVideo
   else []) ++
  (if !jo && c.imagesDirExists then
     ((globImages c.imagesDirContents).filter
        (fun f => !decide (f ∈ skip))).map TransferEv.pushImage
   else [])

/-- The credential push of the master json phase: attempted when the file
exists locally and was not skipped. -/
def masterCredEvents (c : TransferCtx) (skip : List String) :
    List TransferEv :=
  if c.credExists then
    (if decide ("credential.json" ∈ skip) then [] else [.pushCredential])
  else []

/-- The pushes performed after the conflict phase.  Master: `new_data.json`
unless skipped (`push_json` raises `FileNotFoundError` and aborts the device
transfer when the file is absent), then the credential file, then videos and
images.  Slave: `new_data.json` unconditionally (no skip check in the slave
json phase), then videos and images — never a credential file. -/
def transferRestEvents (role : Role) (c : TransferCtx) (vo jo : Bool)
    (skip : List String) : List TransferEv :=
  match role with
  | .master =>
      if vo then videoImageEvents .master c jo skip
      else if decide ("new_data.json" ∈ skip) then
        masterCredEvents c skip ++ videoImageEvents .master c jo skip
      else if c.jsonExists then
        TransferEv.pushJson ::
          (masterCredEvents c skip ++ videoImageEvents .master c jo skip)
      else []
  | .slave =>
      if vo then videoImageEvents .slave c jo skip
      else if c.jsonExists then
        TransferEv.pushJson :: videoImageEvents .slave c jo skip
      else []

/-- The conflict report the session computes over its full local file set. -/
def roleReport (role : Role) (c : TransferCtx) (vo jo : Bool)
    (dD vD iD : String) : ConflictReport :=
  checkTransferConflicts c.remoteExists c.localSize c.remoteSize
    (roleLocalFiles role c vo jo dD vD iD)

/-- The filenames of the session's conflict set. -/
def roleConflictNames (role : Role) (c : TransferCtx) (vo jo : Bool)
    (dD vD iD : String) : List String :=
  (roleReport role c vo jo dD vD iD).conflicts.map ConflictEntry.filename

/-- The event trace of one `_transfer_to_master` / `_transfer_to_slave`
call: directory creation failure aborts; with a non-empty local file set the
conflict check runs once, a non-empty conflict set raises the single
session prompt, `cancel` aborts the device transfer, `skipAll` records the
conflict filenames as the skip set, `overrideAll` records none. -/
def transferTrace (role : Role) (c : TransferCtx) (vo jo : Bool)
    (dD vD iD : String) : List TransferEv :=
  if c.dirCreateOk = false then []
  else
    if (roleLocalFiles role c vo jo dD vD iD).isEmpty then
      transferRestEvents role c vo jo []
    else
      TransferEv.conflictCheck
          ((roleLocalFiles role c vo jo dD vD iD).map Prod.fst) ::
        (if (roleReport role c vo jo dD vD iD).conflicts.isEmpty then
           transferRestEvents role c vo jo []
         else
           TransferEv.conflictPrompt (roleConflictNames role c vo jo dD vD iD) ::
             (match c.conflictChoice with
              | .cancel => []
              | .skipAll =>
                  transferRestEvents role c vo jo
                    (roleConflictNames role c vo jo dD vD iD)
              | .overrideAll => transferRestEvents role c vo jo []))

end EldersVR

namespace EldersVR

theorem videoTasks_both_length (videosDir imagesDir : String) (v : Video) :
    (videoTasks videosDir imagesDir .both v).length = 3 := by
  simp [videoTasks]

theorem tagTasks_length (imagesDir : String) (t : Tag) :
    (tagTasks imagesDir t).length = if t.hasImage then 1 else 0 := by
  unfold tagTasks Tag.hasImage
  cases h : t.imageUrl with
  | none => simp
  | some s => by_cases hs : s.isEmpty <;> simp [hs]

theorem countP_flatMap_eq_sum {α β : Type} (f : α → List β) (p : β → Bool) :
    ∀ l : List α,
      ((l.flatMap f).countP p) = (l.map (fun a => (f a).countP p)).sum := by
  intro l
  induction l with
  | nil => rfl
  | cons a as ih => simp [List.flatMap_cons, List.countP_append, ih]

theorem videoTasks_both_countP (videosDir imagesDir : String) (v : Video)
    (ft : FileType) :
    ((videoTasks videosDir imagesDir .both v).countP
        (fun task => task.file_type == ft)) =
      if ft == FileType.tag_images then 0 else 1 := by
  cases ft <;> rfl

theorem tagTasks_countP (imagesDir : String) (t : Tag) (ft : FileType) :
    ((tagTasks imagesDir t).countP (fun task => task.file_type == ft)) =
      if t.hasImage && (ft == FileType.tag_images) then 1 else 0 := by
  unfold tagTasks Tag.hasImage
  cases h : t.imageUrl with
  | none => cases ft <;> simp
  | some s => by_cases hs : s.isEmpty <;> cases ft <;> simp [hs]

theorem sum_map_one {α : Type} : ∀ l : List α,
    (l.map (fun _ => (1 : Nat))).sum = l.length := by
  intro l
  induction l with
  | nil => rfl
  | cons a as ih =>
      rw [List.map_cons, List.sum_cons, ih, List.length_cons]
      omega

theorem buildDownloadTasks_both_countP (videosDir imagesDir : String)
    (data : ManifestData) (ft : FileType) :
    ((buildDownloadTasks videosDir imagesDir data .both).countP
        (fun task => task.file_type == ft)) =
      (if ft == FileType.tag_images then 0 else data.videos.length) +
      (if ft == FileType.tag_images then
        (data.tags.filter Tag.hasImage).length else 0) := by
  unfold buildDownloadTasks
  rw [List.countP_append, countP_flatMap_eq_sum, countP_flatMap_eq_sum]
  congr 1
  · cases hft : ft == FileType.tag_images with
    | true =>
        have : data.videos.map
            (fun v => (videoTasks videosDir imagesDir .both v).countP
              (fun task => task.file_type == ft)) =
            data.videos.map (fun _ => 0) := by
          apply List.map_congr_left
          intro v _
          rw [videoTasks_both_countP, hft]
          rfl
        rw [this]
        simp
    | false =>
        have : data.videos.map
            (fun v => (videoTasks videosDir imagesDir .both v).countP
              (fun task => task.file_type == ft)) =
            data.videos.map (fun _ => 1) := by
          apply List.map_congr_left
          intro v _
          rw [videoTasks_both_countP, hft]
          rfl
        rw [this, sum_map_one]
        rfl
  · cases hft : ft == FileType.tag_images with
    | true =>
        have : data.tags.map
            (fun t => (tagTasks imagesDir t).countP
              (fun task => task.file_type == ft)) =
            data.tags.map (fun t => if t.hasImage then 1 else 0) := by
          apply List.map_congr_left
          intro t _
          rw [tagTasks_countP, hft]
          cases h : t.hasImage <;> rfl
        rw [this, if_pos rfl]
        induction data.tags with
        | nil => rfl
        | cons t ts ih =>
            rw [List.map_cons, List.sum_cons, ih, List.filter_cons]
            cases h : t.hasImage <;> simp [h]
            omega
    | false =>
        have : data.tags.map
            (fun t => (tagTasks imagesDir t).countP
              (fun task => task.file_type == ft)) =
            data.tags.map (fun _ => 0) := by
          apply List.map_congr_left
          intro t _
          rw [tagTasks_countP, hft]
          cases h : t.hasImage <;> rfl
        rw [this]
        simp

theorem buildDownloadTasks_both_total (videosDir imagesDir : String)
    (data : ManifestData) :
    (buildDownloadTasks videosDir imagesDir data .both).length =
      3 * data.videos.length +
        (data.tags.filter Tag.hasImage).length := by
  unfold buildDownloadTasks
  rw [List.length_append]
  congr 1
  · rw [List.length_flatMap]
    induction data.videos with
    | nil => simp
    | cons v vs ih =>
        simp only [List.map_cons, List.sum_cons, ih, Function.comp_apply,
          videoTasks_both_length, List.length_cons]
        ring
  · rw [List.length_flatMap]
    induction data.tags with
    | nil => simp
    | cons t ts ih =>
        simp only [List.map_cons, List.sum_cons, ih, Function.comp_apply,
          tagTasks_length]
        by_cases h : t.hasImage <;> simp [h, List.filter_cons]
        omega

end EldersVR


/-- C3: with quality `both`, `download_all_assets` expands exactly
`3 * N + T` download tasks — one `videos_high`, one `videos_low` and one
`thumbnails` task per video, plus one `tag_images` task per tag with a
non-empty `imageUrl`. -/
theorem C3_download_all_assets_task_count (videosDir imagesDir : String)
    (data : EldersVR.ManifestData) :
    ((EldersVR.buildDownloadTasks videosDir imagesDir data .both).length =
      3 * data.videos.length +
        (data.tags.filter EldersVR.Tag.hasImage).length) ∧
    ((EldersVR.buildDownloadTasks videosDir imagesDir data .both).countP
        (fun task => task.file_type == .videos_high) =
      data.videos.length) ∧
    ((EldersVR.buildDownloadTasks videosDir imagesDir data .both).countP
        (fun task => task.file_type == .videos_low) =
      data.videos.length) ∧
    ((EldersVR.buildDownloadTasks videosDir imagesDir data .both).countP
        (fun task => task.file_type == .thumbnails) =
      data.videos.length) ∧
    ((EldersVR.buildDownloadTasks videosDir imagesDir data .both).countP
        (fun task => task.file_type == .tag_images) =
      (data.tags.filter EldersVR.Tag.hasImage).length) := by
  refine ⟨?_, ?_, ?_, ?_, ?_⟩
  · exact EldersVR.buildDownloadTasks_both_total videosDir imagesDir data
  · rw [EldersVR.buildDownloadTasks_both_countP]; simp
  · rw [EldersVR.buildDownloadTasks_both_countP]; simp
  · rw [EldersVR.buildDownloadTasks_both_countP]; simp
  · rw [EldersVR.buildDownloadTasks_both_countP]; simp

namespace EldersVR

theorem statsStep_completed (ft : FileType) (b : Bool) (s : DownloadStats) :
    (statsStep ft b s).completed_files = s.completed_files + 1 := by
  cases b <;> cases ft <;> rfl

theorem statsStep_failed (ft : FileType) (b : Bool) (s : DownloadStats) :
    (statsStep ft b s).failed_downloads =
      s.failed_downloads + (if b then 0 else 1) := by
  cases b <;> cases ft <;> simp [statsStep, DownloadStats.bump]

theorem foldl_statsStep_completed (f : DownloadTask → Bool) :
    ∀ (tasks : List DownloadTask) (stats : DownloadStats),
      (tasks.foldl (fun st t => statsStep t.file_type (f t) st)
          stats).completed_files = stats.completed_files + tasks.length := by
  intro tasks
  induction tasks with
  | nil => intro stats; simp
  | cons t ts ih =>
      intro stats
      rw [List.foldl_cons, ih, statsStep_completed, List.length_cons]
      omega

theorem foldl_statsStep_failed (f : DownloadTask → Bool) :
    ∀ (tasks : List DownloadTask) (stats : DownloadStats),
      (tasks.foldl (fun st t => statsStep t.file_type (f t) st)
          stats).failed_downloads =
        stats.failed_downloads + tasks.countP (fun t => !(f t)) := by
  intro tasks
  induction tasks with
  | nil => intro stats; simp
  | cons t ts ih =>
      intro stats
      rw [List.foldl_cons, ih, statsStep_failed, List.countP_cons]
      cases h : f t <;> simp [h]
      omega

theorem downloadFileLoop_all_fail (ra : Nat) (fails : Nat → Bool)
    (hall : ∀ a < ra, fails a = true) :
    ∀ (n s : Nat), s + n = ra → 1 ≤ n →
      downloadFileLoop ra fails (List.range' s n) = (false, n, n - 1) := by
  intro n
  induction n with
  | zero => intro s _ h; omega
  | succ m ih =>
      intro s hs _
      rw [List.range'_succ]
      unfold downloadFileLoop
      rw [hall s (by omega)]
      by_cases hm : m = 0
      · subst hm
        have hlt : ¬ s < ra - 1 := by omega
        simp [hlt]
      · have hlt : s < ra - 1 := by omega
        rw [if_pos rfl, if_pos hlt, ih (s + 1) (by omega) (by omega)]
        simp only []
        refine Prod.ext rfl (Prod.ext ?_ ?_) <;> simp
        omega

theorem downloadFileLoop_true_iff (ra : Nat) (fails : Nat → Bool) :
    ∀ (n s : Nat), s + n = ra →
      ((downloadFileLoop ra fails (List.range' s n)).1 = true ↔
        ∃ a, s ≤ a ∧ a < ra ∧ fails a = false) := by
  intro n
  induction n with
  | zero =>
      intro s hs
      simp only [List.range', downloadFileLoop]
      constructor
      · intro h; exact absurd h (by simp)
      · rintro ⟨a, h1, h2, _⟩; omega
  | succ m ih =>
      intro s hs
      rw [List.range'_succ]
      unfold downloadFileLoop
      cases hf : fails s with
      | false =>
          simp only [Bool.false_eq_true, if_false]
          constructor
          · intro _; exact ⟨s, le_refl s, by omega, hf⟩
          · intro _; trivial
      | true =>
          simp only [if_true]
          by_cases hlt : s < ra - 1
          · rw [if_pos hlt]
            simp only []
            rw [ih (s + 1) (by omega)]
            constructor
            · rintro ⟨a, h1, h2, h3⟩; exact ⟨a, by omega, h2, h3⟩
            · rintro ⟨a, h1, h2, h3⟩
              refine ⟨a, ?_, h2, h3⟩
              rcases Nat.eq_or_lt_of_le h1 with h | h
              · exfalso; rw [← h] at h3; rw [hf] at h3; exact absurd h3 (by simp)
              · omega
          · rw [if_neg hlt]
            constructor
            · intro h; exact absurd h (by simp)
            · rintro ⟨a, h1, h2, h3⟩
              have : a = s := by omega
              rw [this, hf] at h3
              exact absurd h3 (by simp)

theorem downloadFileRun_false_iff (ra : Nat) (fails : Nat → Bool) :
    ((downloadFileRun ra fails).1 = false ↔ ∀ a < ra, fails a = true) := by
  unfold downloadFileRun
  rw [List.range_eq_range']
  have h := downloadFileLoop_true_iff ra fails ra 0 (by omega)
  constructor
  · intro hfalse a ha
    by_contra hcon
    have : (downloadFileLoop ra fails (List.range' 0 ra)).1 = true :=
      h.mpr ⟨a, by omega, ha, by simpa using hcon⟩
    rw [hfalse] at this
    exact absurd this (by simp)
  · intro hall
    cases hres : (downloadFileLoop ra fails (List.range' 0 ra)).1 with
    | false => rfl
    | true =>
        obtain ⟨a, _, h2, h3⟩ := h.mp hres
        rw [hall a h2] at h3
        exact absurd h3 (by simp)

theorem checkExistingFiles_skip (existsOnDisk : String → Bool)
    (tasks : List DownloadTask) :
    checkExistingFiles existsOnDisk .skip tasks =
      (tasks.filter (fun t => !existsOnDisk t.local_path),
       (tasks.filter (fun t => existsOnDisk t.local_path)).map
         (fun t => basename t.local_path)) := by
  unfold checkExistingFiles
  by_cases hemp : (tasks.filter (fun t => existsOnDisk t.local_path)).isEmpty
  · rw [if_pos hemp]
    rw [List.isEmpty_iff] at hemp
    rw [hemp]
    have hall : ∀ t ∈ tasks, existsOnDisk t.local_path = false := by
      intro t ht
      by_contra hcon
      have : t ∈ tasks.filter (fun t => existsOnDisk t.local_path) :=
        List.mem_filter.mpr ⟨ht, by simpa using hcon⟩
      rw [hemp] at this
      exact absurd this (List.not_mem_nil t)
    have : tasks.filter (fun t => !existsOnDisk t.local_path) = tasks := by
      apply List.filter_eq_self.mpr
      intro t ht
      rw [hall t ht]
      rfl
    rw [this]
    simp
  · rw [if_neg hemp]
    simp only []
    congr 1
    have hcongr : ∀ t ∈ tasks,
        (!decide (t ∈ tasks.filter (fun t => !existsOnDisk t.local_path))) =
          existsOnDisk t.local_path := by
      intro t ht
      cases h : existsOnDisk t.local_path with
      | true =>
          have : t ∉ tasks.filter (fun t => !existsOnDisk t.local_path) := by
            intro hmem
            have := (List.mem_filter.mp hmem).2
            rw [h] at this
            exact absurd this (by simp)
          simp [this]
      | false =>
          have : t ∈ tasks.filter (fun t => !existsOnDisk t.local_path) :=
            List.mem_filter.mpr ⟨ht, by rw [h]; rfl⟩
          simp [this]
    rw [List.filter_congr hcongr]

theorem downloadRunExec_attempted_sub (parallel : Bool)
    (oracle : DownloadTask → Bool) (tasks toDownload : List DownloadTask)
    (skipped : List String) :
    ∀ t ∈ (downloadRunExec parallel oracle tasks toDownload skipped).attempted,
      t ∈ toDownload := by
  intro t ht
  unfold downloadRunExec at ht
  split at ht
  · exact absurd ht (List.not_mem_nil t)
  · split at ht <;> exact ht

end EldersVR


/-- C9: with the same simulated per-task `download_file` outcomes, the
parallel stats fold (which with `max_concurrent_downloads = 1` processes
tasks one at a time in submission order) and the sequential loop produce the
same `DownloadStats`, and a `download_all_assets` run taking the parallel
path agrees with one taking the sequential path, field by field. -/
theorem C9_parallel_sequential_agree (oracle : EldersVR.DownloadTask → Bool)
    (tasks : List EldersVR.DownloadTask) (stats : EldersVR.DownloadStats)
    (videosDir imagesDir : String) (data : EldersVR.ManifestData)
    (quality : EldersVR.Quality) (existsOnDisk : String → Bool)
    (choice : EldersVR.ExistChoice) :
    EldersVR.downloadAssetsParallel (fun t => .ok (oracle t)) tasks stats =
        EldersVR.downloadAssetsSequential oracle tasks stats ∧
    EldersVR.downloadAllAssets videosDir imagesDir data quality true
        existsOnDisk choice oracle =
      EldersVR.downloadAllAssets videosDir imagesDir data quality false
        existsOnDisk choice oracle := by
  constructor
  · rfl
  · unfold EldersVR.downloadAllAssets EldersVR.downloadRunExec
    dsimp only
    split
    · rfl
    · simp only [Bool.true_and, Bool.false_and]
      split
      · rfl
      · rfl

/-- C8: per-file failures — including exceptions escaping a per-task handler
(`.error` outcomes) — are captured in `failed_downloads` rather than
propagated: the engine processes every task (`completed_files` grows by the
full task count), `failed_downloads` counts exactly the non-successful tasks,
and `cmd_download_videos` returns exit code 1 whenever `failed_downloads > 0`. -/
theorem C8_per_file_failure_handling
    (oracle : EldersVR.DownloadTask → Except String Bool)
    (tasks : List EldersVR.DownloadTask) (stats : EldersVR.DownloadStats) :
    (EldersVR.downloadAssetsParallel oracle tasks stats).completed_files =
        stats.completed_files + tasks.length ∧
    (EldersVR.downloadAssetsParallel oracle tasks stats).failed_downloads =
        stats.failed_downloads +
          tasks.countP (fun t => !(EldersVR.parallelTaskResult (oracle t))) ∧
    ((EldersVR.downloadAssetsParallel oracle tasks stats).failed_downloads > 0 →
      EldersVR.cmdDownloadVideosExit
        (EldersVR.downloadAssetsParallel oracle tasks stats) = 1) := by
  refine ⟨?_, ?_, ?_⟩
  · exact EldersVR.foldl_statsStep_completed _ tasks stats
  · exact EldersVR.foldl_statsStep_failed _ tasks stats
  · intro h
    unfold EldersVR.cmdDownloadVideosExit
    rw [if_pos h]

/-- Witness for C8 at a concrete run: one task whose handler raises. -/
theorem C8_per_file_failure_handling_witness :
    EldersVR.cmdDownloadVideosExit
      (EldersVR.downloadAssetsParallel (fun _ => Except.error "boom")
        [⟨"u", "p", EldersVR.FileType.videos_high⟩] EldersVR.initStats) = 1 :=
  (C8_per_file_failure_handling (fun _ => Except.error "boom")
    [⟨"u", "p", EldersVR.FileType.videos_high⟩] EldersVR.initStats).2.2
    (by decide)

/-- C7: `download_file` returns `False` exactly when all `retry_attempts`
attempts fail; in that case it made all configured attempts with one
`retry_delay` sleep between each pair of consecutive attempts; and an
exhausted task does not stop the worker pool from processing every sibling
task. -/
theorem C7_download_file_retry (ra : Nat) (fails : Nat → Bool) (hpos : 0 < ra) :
    ((EldersVR.downloadFileRun ra fails).1 = false ↔
        ∀ a < ra, fails a = true) ∧
    ((∀ a < ra, fails a = true) →
      EldersVR.downloadFileRun ra fails = (false, ra, ra - 1)) ∧
    (∀ (oracle : EldersVR.DownloadTask → Except String Bool)
        (tasks : List EldersVR.DownloadTask) (stats : EldersVR.DownloadStats),
      (EldersVR.downloadAssetsParallel oracle tasks stats).completed_files =
        stats.completed_files + tasks.length) := by
  refine ⟨EldersVR.downloadFileRun_false_iff ra fails, ?_, ?_⟩
  · intro hall
    unfold EldersVR.downloadFileRun
    rw [List.range_eq_range']
    exact EldersVR.downloadFileLoop_all_fail ra fails hall ra 0 (by omega) hpos
  · intro oracle tasks stats
    exact EldersVR.foldl_statsStep_completed _ tasks stats

/-- Witness for C7: two always-failing attempts give `(False, 2 attempts,
1 sleep)`. -/
theorem C7_download_file_retry_witness :
    EldersVR.downloadFileRun 2 (fun _ => true) = (false, 2, 1) :=
  (C7_download_file_retry 2 (fun _ => true) (by decide)).2.1 (fun _ _ => rfl)

/-- C10: with `retry_attempts = 0` — a value `_validate_config` accepts —
`download_file` enters the loop body zero times (no HTTP request, no file
write, no sleep) and returns `False`, so every task of such a run is tallied
as a failed download by both engine loops. -/
theorem C10_zero_retry_attempts (fails : Nat → Bool)
    (maxConc timeout : Option Int) :
    EldersVR.downloadFileRun 0 fails = (false, 0, 0) ∧
    "retry_attempts must be >= 0" ∉
      EldersVR.validateDownloadSettings maxConc timeout (some 0) ∧
    (∀ (tasks : List EldersVR.DownloadTask) (stats : EldersVR.DownloadStats),
      (EldersVR.downloadAssetsParallel (fun _ => Except.ok false) tasks
          stats).failed_downloads = stats.failed_downloads + tasks.length ∧
      (EldersVR.downloadAssetsSequential (fun _ => false) tasks
          stats).failed_downloads = stats.failed_downloads + tasks.length) := by
  refine ⟨rfl, ?_, ?_⟩
  · intro hmem
    unfold EldersVR.validateDownloadSettings at hmem
    rw [List.mem_append, List.mem_append] at hmem
    rcases hmem with (h | h) | h
    · split at h
      · rw [List.mem_singleton] at h
        exact absurd h (by decide)
      · exact absurd h (List.not_mem_nil _)
    · split at h
      · rw [List.mem_singleton] at h
        exact absurd h (by decide)
      · exact absurd h (List.not_mem_nil _)
    · simp [EldersVR.optLt] at h
  · intro tasks stats
    constructor
    · have := EldersVR.foldl_statsStep_failed
        (fun t => EldersVR.parallelTaskResult (Except.ok false)) tasks stats
      unfold EldersVR.downloadAssetsParallel
      rw [this]
      simp [EldersVR.parallelTaskResult]
    · have := EldersVR.foldl_statsStep_failed (fun _ => false) tasks stats
      unfold EldersVR.downloadAssetsSequential
      rw [this]
      simp

/-- Witness for C10 (the statement has universally quantified oracles but no
hypothesis; this instantiates it anyway at a concrete run). -/
theorem C10_zero_retry_attempts_witness :
    EldersVR.downloadFileRun 0 (fun _ => true) = (false, 0, 0) :=
  (C10_zero_retry_attempts (fun _ => true) none none).1

/-- C2 counterexample: a task whose local path pre-exists (the filesystem
oracle answers `true` for every path) stays in the execution list, is
attempted, and is not counted in `skipped_files` when the user answers
`override` at the existing-files prompt. -/
theorem C2_counterexample :
    (EldersVR.downloadAllAssets "v" "i" ⟨[], [⟨some "http://x/a.png"⟩]⟩ .both
        true (fun _ => true) .override (fun _ => true)).attempted =
      [⟨"http://x/a.png", "i/a.png", EldersVR.FileType.tag_images⟩] ∧
    (EldersVR.downloadAllAssets "v" "i" ⟨[], [⟨some "http://x/a.png"⟩]⟩ .both
        true (fun _ => true) .override (fun _ => true)).stats.skipped_files =
      0 := by
  constructor <;> rfl

/-- C2 (amended): pre-existing tasks are removed from the execution list,
counted in `skipped_files` and never attempted when the user chooses `skip`
(or when no file pre-exists and no prompt occurs); choosing `override` keeps
every task — pre-existing ones included — in the execution list with nothing
counted as skipped, and choosing `cancel` empties the execution list with
nothing counted as skipped. -/
theorem C2_prefilter_amended (existsOnDisk : String → Bool)
    (tasks : List EldersVR.DownloadTask) :
    (EldersVR.checkExistingFiles existsOnDisk .skip tasks =
      (tasks.filter (fun t => !existsOnDisk t.local_path),
       (tasks.filter (fun t => existsOnDisk t.local_path)).map
         (fun t => EldersVR.basename t.local_path))) ∧
    ((tasks.filter (fun t => existsOnDisk t.local_path)).isEmpty = false →
      EldersVR.checkExistingFiles existsOnDisk .override tasks = (tasks, []) ∧
      EldersVR.checkExistingFiles existsOnDisk .cancel tasks = ([], [])) ∧
    (∀ (videosDir imagesDir : String) (data : EldersVR.ManifestData)
        (quality : EldersVR.Quality) (parallel : Bool)
        (oracle : EldersVR.DownloadTask → Bool),
      ∀ t ∈ (EldersVR.downloadAllAssets videosDir imagesDir data quality
          parallel existsOnDisk .skip oracle).attempted,
        existsOnDisk t.local_path = false) ∧
    (∀ (imagesDir : String) (data : EldersVR.ManifestData) (parallel : Bool)
        (oracle : EldersVR.DownloadTask → Bool),
      ∀ t ∈ (EldersVR.downloadImagesOnly imagesDir data parallel existsOnDisk
          .skip oracle).attempted,
        existsOnDisk t.local_path = false) := by
  refine ⟨EldersVR.checkExistingFiles_skip existsOnDisk tasks, ?_, ?_, ?_⟩
  · intro hne
    unfold EldersVR.checkExistingFiles
    rw [if_neg (by rw [hne]; decide), if_neg (by rw [hne]; decide)]
    exact ⟨rfl, rfl⟩
  · intro videosDir imagesDir data quality parallel oracle t ht
    have ht2 : t ∈ (EldersVR.checkExistingFiles existsOnDisk .skip
        (EldersVR.buildDownloadTasks videosDir imagesDir data quality)).1 :=
      EldersVR.downloadRunExec_attempted_sub _ _ _ _ _ t ht
    rw [EldersVR.checkExistingFiles_skip] at ht2
    simpa using (List.mem_filter.mp ht2).2
  · intro imagesDir data parallel oracle t ht
    have ht2 : t ∈ (EldersVR.checkExistingFiles existsOnDisk .skip
        (EldersVR.buildImageTasks imagesDir data)).1 :=
      EldersVR.downloadRunExec_attempted_sub _ _ _ _ _ t ht
    rw [EldersVR.checkExistingFiles_skip] at ht2
    simpa using (List.mem_filter.mp ht2).2

/-- Witness for C2 (amended) at a concrete input: one pre-existing task,
choice `override`. -/
theorem C2_prefilter_amended_witness :
    EldersVR.checkExistingFiles (fun _ => true) .override
      [⟨"u", "p", EldersVR.FileType.videos_high⟩] =
      ([⟨"u", "p", EldersVR.FileType.videos_high⟩], []) :=
  ((C2_prefilter_amended (fun _ => true)
    [⟨"u", "p", EldersVR.FileType.videos_high⟩]).2.1 (by decide)).1

namespace EldersVR

theorem fallbackTestPath_head :
    fallbackTestPath "/storage/emulated/0/Android/data" = defaultDevicePath := by
  decide

end EldersVR


/-- C6: when the primary path fails the existence-and-writability test and
no root escalation is available, a first fallback path that accepts
`mkdir -p` plus a writability test makes storage resolution succeed with the
manager's base path mutated to that fallback (the `Android/data` fallback
getting the app-specific suffix) and `Video`/`Image` subpaths re-derived
from it; when every fallback fails, resolution fails. -/
theorem C6_storage_fallback_resolution (env : EldersVR.DeviceEnv)
    (st : EldersVR.AdbPaths)
    (hfail : ¬(env.dirExists st.eldersvr_path = true ∧
               env.writable st.eldersvr_path = true))
    (hroot : env.rootAvailable = false) :
    (env.fallbackOk EldersVR.defaultDevicePath = true →
      EldersVR.verifyStorageAccess env st =
        (true, EldersVR.initAdbPaths EldersVR.defaultDevicePath)) ∧
    ((∀ p ∈ EldersVR.fallbackPaths,
        env.fallbackOk (EldersVR.fallbackTestPath p) = false) →
      EldersVR.verifyStorageAccess env st = (false, st)) := by
  have h1 : (env.dirExists st.eldersvr_path &&
      env.writable st.eldersvr_path) = false := by
    cases hdd : env.dirExists st.eldersvr_path <;>
      cases hww : env.writable st.eldersvr_path <;> simp_all
  have h2 : (env.rootAvailable && env.rootSetupOk) = false := by
    rw [hroot]; rfl
  constructor
  · intro hfb
    unfold EldersVR.verifyStorageAccess
    rw [h1, h2]
    simp only [Bool.false_eq_true, if_false]
    unfold EldersVR.tryFallbackPaths EldersVR.fallbackPaths
    unfold EldersVR.tryFallbackPathsGo
    rw [EldersVR.fallbackTestPath_head, hfb]
    rw [if_pos rfl]
    rfl
  · intro hall
    unfold EldersVR.verifyStorageAccess
    rw [h1, h2]
    simp only [Bool.false_eq_true, if_false]
    unfold EldersVR.tryFallbackPaths EldersVR.fallbackPaths
    unfold EldersVR.tryFallbackPathsGo
    rw [hall "/storage/emulated/0/Android/data" (by decide)]
    simp only [Bool.false_eq_true, if_false]
    unfold EldersVR.tryFallbackPathsGo
    rw [hall "/storage/emulated/0/Documents/EldersVR" (by decide)]
    simp only [Bool.false_eq_true, if_false]
    unfold EldersVR.tryFallbackPathsGo
    rw [hall "/sdcard/EldersVR" (by decide)]
    simp only [Bool.false_eq_true, if_false]
    unfold EldersVR.tryFallbackPathsGo
    rw [hall "/storage/sdcard0/EldersVR" (by decide)]
    simp only [Bool.false_eq_true, if_false]
    unfold EldersVR.tryFallbackPathsGo
    rfl

/-- Witness for C6: a device where nothing is writable except the first
fallback resolves to the app-specific directory under `Android/data`. -/
theorem C6_storage_fallback_resolution_witness :
    EldersVR.verifyStorageAccess
      ⟨fun _ => false, fun _ => false, false, false, fun _ => true⟩
      (EldersVR.initAdbPaths EldersVR.defaultDevicePath) =
      (true, EldersVR.initAdbPaths EldersVR.defaultDevicePath) :=
  (C6_storage_fallback_resolution
    ⟨fun _ => false, fun _ => false, false, false, fun _ => true⟩
    (EldersVR.initAdbPaths EldersVR.defaultDevicePath)
    (by simp) rfl).1 rfl

namespace EldersVR

theorem pushVideoFilesGo_attempted (localExists pushOk : String → Bool) :
    ∀ fileList : List String,
      (pushVideoFilesGo localExists pushOk fileList).2 =
        fileList.filter (fun f => localExists f) := by
  intro fileList
  induction fileList with
  | nil => rfl
  | cons f rest ih =>
      unfold pushVideoFilesGo
      cases h : localExists f with
      | true => simp [h, List.filter_cons, ih]
      | false => simp [h, List.filter_cons, ih]

theorem pushVideoFilesGo_success (localExists pushOk : String → Bool) :
    ∀ fileList : List String,
      (pushVideoFilesGo localExists pushOk fileList).1 =
        fileList.countP (fun f => localExists f && pushOk f) := by
  intro fileList
  induction fileList with
  | nil => rfl
  | cons f rest ih =>
      unfold pushVideoFilesGo
      cases h : localExists f with
      | true =>
          cases hp : pushOk f with
          | true => simp [h, hp, List.countP_cons, ih]
          | false => simp [h, hp, List.countP_cons, ih]
      | false => simp [h, List.countP_cons, ih]

theorem filter_skip_idem (l skip : List String) :
    ((l.filter (fun f => !decide (f ∈ skip))).filter
        (fun f => !decide (f ∈ skip))) =
      l.filter (fun f => !decide (f ∈ skip)) := by
  apply List.filter_eq_self.mpr
  intro f hf
  exact (List.mem_filter.mp hf).2

end EldersVR


/-- C4: in the device video push loop a single file's failure does not abort
the loop — every locally present file in the list is still attempted,
independent of other files' outcomes — and for both the master and the slave
transfer the videos class is `completed` iff the success count equals the
total, where the total counts the role-filtered video list minus the
user-skipped filenames. -/
theorem C4_video_push_no_abort (localExists pushOk : String → Bool)
    (fileList videosListing filesToSkip : List String) :
    ((EldersVR.pushVideoFiles localExists pushOk fileList).2 =
        fileList.filter (fun f => localExists f)) ∧
    ((EldersVR.pushVideoFiles localExists pushOk fileList).1 =
        (fileList.countP (fun f => localExists f && pushOk f),
         fileList.length)) ∧
    ((EldersVR.masterVideoPhase videosListing filesToSkip localExists
        pushOk).2.2 =
      ((EldersVR.lowResFilter videosListing).filter
          (fun f => !decide (f ∈ filesToSkip))).length) ∧
    ((EldersVR.masterVideoPhase videosListing filesToSkip localExists
        pushOk).1 = .completed ↔
      (EldersVR.masterVideoPhase videosListing filesToSkip localExists
        pushOk).2.1 =
      (EldersVR.masterVideoPhase videosListing filesToSkip localExists
        pushOk).2.2) ∧
    ((EldersVR.slaveVideoPhase videosListing filesToSkip localExists
        pushOk).2.2 =
      ((EldersVR.highResFilter videosListing).filter
          (fun f => !decide (f ∈ filesToSkip))).length) ∧
    ((EldersVR.slaveVideoPhase videosListing filesToSkip localExists
        pushOk).1 = .completed ↔
      (EldersVR.slaveVideoPhase videosListing filesToSkip localExists
        pushOk).2.1 =
      (EldersVR.slaveVideoPhase videosListing filesToSkip localExists
        pushOk).2.2) := by
  refine ⟨?_, ?_, ?_, ?_, ?_, ?_⟩
  · exact EldersVR.pushVideoFilesGo_attempted localExists pushOk fileList
  · unfold EldersVR.pushVideoFiles
    rw [EldersVR.pushVideoFilesGo_success]
  · unfold EldersVR.masterVideoPhase EldersVR.videoPhaseResult
      EldersVR.pushVideosFiltered EldersVR.pushVideoFiles
    rw [EldersVR.filter_skip_idem]
  · unfold EldersVR.masterVideoPhase EldersVR.videoPhaseResult
    split
    · simp_all
    · simp_all
  · unfold EldersVR.slaveVideoPhase EldersVR.videoPhaseResult
      EldersVR.pushVideosFiltered EldersVR.pushVideoFiles
    rfl
  · unfold EldersVR.slaveVideoPhase EldersVR.videoPhaseResult
    split
    · simp_all
    · simp_all

namespace EldersVR

theorem credential_not_image (contents : List String) :
    "credential.json" ∉ globImages contents := by
  intro h
  rw [globImages] at h
  rcases List.mem_flatMap.mp h with ⟨e, he, hmem⟩
  rcases List.mem_append.mp hmem with hm | hm
  · have hend := (List.mem_filter.mp hm).2
    simp only [imageExts, List.mem_cons, List.not_mem_nil, or_false] at he
    rcases he with rfl | rfl | rfl | rfl | rfl <;> exact absurd hend (by decide)
  · have hend := (List.mem_filter.mp hm).2
    simp only [imageExts, List.mem_cons, List.not_mem_nil, or_false] at he
    rcases he with rfl | rfl | rfl | rfl | rfl <;> exact absurd hend (by decide)

theorem credential_not_highres (listing : List String) :
    "credential.json" ∉ highResFilter listing := by
  intro h
  have h2 := (List.mem_filter.mp h).2
  rw [Bool.and_eq_true] at h2
  exact absurd h2.1 (by decide)

theorem masterLocalFiles_keys (jE cE vE iE : Bool) (vl ic : List String)
    (dD vD iD : String) (n : String) :
    (n ∈ (masterLocalFiles jE cE vE iE vl ic false false dD vD iD).map
        Prod.fst) ↔
      ((n = "new_data.json" ∧ jE = true) ∨
       (n = "credential.json" ∧ cE = true) ∨
       (vE = true ∧ n ∈ lowResFilter vl) ∨
       (iE = true ∧ n ∈ globImages ic)) := by
  cases jE <;> cases cE <;> cases vE <;> cases iE <;>
    simp [masterLocalFiles, List.mem_append, List.mem_map]

theorem slaveLocalFiles_keys (jE vE iE : Bool) (vl ic : List String)
    (dD vD iD : String) (n : String) :
    (n ∈ (slaveLocalFiles jE vE iE vl ic false false dD vD iD).map
        Prod.fst) ↔
      ((n = "new_data.json" ∧ jE = true) ∨
       (vE = true ∧ n ∈ highResFilter vl) ∨
       (iE = true ∧ n ∈ globImages ic)) := by
  cases jE <;> cases vE <;> cases iE <;>
    simp [slaveLocalFiles, List.mem_append, List.mem_map]

theorem slaveLocalFiles_keys_sub (jE vE iE vo jo : Bool)
    (vl ic : List String) (dD vD iD : String) (n : String) :
    n ∈ (slaveLocalFiles jE vE iE vl ic vo jo dD vD iD).map Prod.fst →
      n = "new_data.json" ∨ n ∈ highResFilter vl ∨ n ∈ globImages ic := by
  intro h
  cases vo <;> cases jo <;> cases jE <;> cases vE <;> cases iE <;>
    simp [slaveLocalFiles, List.mem_append, List.mem_map] at h <;> tauto

end EldersVR


/-- C5: with the default scope flags the master transfer set consists of
exactly the `lowres_*.mp4` videos, the globbed image set, `new_data.json`
and `credential.json` (the json files when present locally, the video and
image groups when their directory exists), the slave transfer set of exactly
the `highres_*.mp4` videos, the image set and `new_data.json`; and for every
flag combination no credential file ever enters the slave set. -/
theorem C5_role_file_sets (jE cE vE iE : Bool) (vl ic : List String)
    (dD vD iD : String) :
    (∀ n, n ∈ (EldersVR.masterLocalFiles jE cE vE iE vl ic false false
        dD vD iD).map Prod.fst ↔
      ((n = "new_data.json" ∧ jE = true) ∨
       (n = "credential.json" ∧ cE = true) ∨
       (vE = true ∧ n ∈ EldersVR.lowResFilter vl) ∨
       (iE = true ∧ n ∈ EldersVR.globImages ic))) ∧
    (∀ n, n ∈ (EldersVR.slaveLocalFiles jE vE iE vl ic false false
        dD vD iD).map Prod.fst ↔
      ((n = "new_data.json" ∧ jE = true) ∨
       (vE = true ∧ n ∈ EldersVR.highResFilter vl) ∨
       (iE = true ∧ n ∈ EldersVR.globImages ic))) ∧
    (∀ (vo jo : Bool),
      "credential.json" ∉ (EldersVR.slaveLocalFiles jE vE iE vl ic vo jo
        dD vD iD).map Prod.fst) := by
  refine ⟨?_, ?_, ?_⟩
  · intro n; exact EldersVR.masterLocalFiles_keys jE cE vE iE vl ic dD vD iD n
  · intro n; exact EldersVR.slaveLocalFiles_keys jE vE iE vl ic dD vD iD n
  · intro vo jo h
    rcases EldersVR.slaveLocalFiles_keys_sub jE vE iE vo jo vl ic dD vD iD
      "credential.json" h with h1 | h2 | h3
    · exact absurd h1 (by decide)
    · exact EldersVR.credential_not_highres vl h2
    · exact EldersVR.credential_not_image ic h3

namespace EldersVR

theorem videoImageEvents_not_check_prompt (role : Role) (c : TransferCtx)
    (jo : Bool) (skip : List String) :
    ∀ e ∈ videoImageEvents role c jo skip,
      e.isCheck = false ∧ e.isPrompt = false := by
  intro e he
  rcases List.mem_append.mp he with h | h
  · split at h
    · rcases List.mem_map.mp h with ⟨f, _, rfl⟩; exact ⟨rfl, rfl⟩
    · exact absurd h (List.not_mem_nil e)
  · split at h
    · rcases List.mem_map.mp h with ⟨f, _, rfl⟩; exact ⟨rfl, rfl⟩
    · exact absurd h (List.not_mem_nil e)

theorem masterCredEvents_not_check_prompt (c : TransferCtx)
    (skip : List String) :
    ∀ e ∈ masterCredEvents c skip,
      e.isCheck = false ∧ e.isPrompt = false := by
  intro e he
  unfold masterCredEvents at he
  split at he
  · split at he
    · exact absurd he (List.not_mem_nil e)
    · rw [List.mem_singleton] at he; subst he; exact ⟨rfl, rfl⟩
  · exact absurd he (List.not_mem_nil e)

theorem transferRestEvents_not_check_prompt (role : Role) (c : TransferCtx)
    (vo jo : Bool) (skip : List String) :
    ∀ e ∈ transferRestEvents role c vo jo skip,
      e.isCheck = false ∧ e.isPrompt = false := by
  intro e he
  cases role with
  | master =>
      unfold transferRestEvents at he
      dsimp only at he
      split at he
      · exact videoImageEvents_not_check_prompt _ _ _ _ e he
      · split at he
        · rcases List.mem_append.mp he with h | h
          · exact masterCredEvents_not_check_prompt _ _ e h
          · exact videoImageEvents_not_check_prompt _ _ _ _ e h
        · split at he
          · rcases List.mem_cons.mp he with rfl | h
            · exact ⟨rfl, rfl⟩
            · rcases List.mem_append.mp h with h2 | h2
              · exact masterCredEvents_not_check_prompt _ _ e h2
              · exact videoImageEvents_not_check_prompt _ _ _ _ e h2
          · exact absurd he (List.not_mem_nil e)
  | slave =>
      unfold transferRestEvents at he
      dsimp only at he
      split at he
      · exact videoImageEvents_not_check_prompt _ _ _ _ e he
      · split at he
        · rcases List.mem_cons.mp he with rfl | h
          · exact ⟨rfl, rfl⟩
          · exact videoImageEvents_not_check_prompt _ _ _ _ e h
        · exact absurd he (List.not_mem_nil e)

theorem transferRestEvents_countP_check (role : Role) (c : TransferCtx)
    (vo jo : Bool) (skip : List String) :
    (transferRestEvents role c vo jo skip).countP TransferEv.isCheck = 0 := by
  rw [List.countP_eq_zero]
  intro e he
  rw [(transferRestEvents_not_check_prompt role c vo jo skip e he).1]
  decide

theorem transferRestEvents_countP_prompt (role : Role) (c : TransferCtx)
    (vo jo : Bool) (skip : List String) :
    (transferRestEvents role c vo jo skip).countP TransferEv.isPrompt = 0 := by
  rw [List.countP_eq_zero]
  intro e he
  rw [(transferRestEvents_not_check_prompt role c vo jo skip e he).2]
  decide

theorem checkTransferConflicts_partition (re : String → Bool)
    (ls rs : String → Nat) (files : List (String × String)) (f : String) :
    (f ∈ (checkTransferConflicts re ls rs files).safe_files ↔
      ∃ p, (f, p) ∈ files ∧ re f = false) ∧
    (f ∈ (checkTransferConflicts re ls rs files).conflicts.map
        ConflictEntry.filename ↔
      ∃ p, (f, p) ∈ files ∧ re f = true) := by
  constructor
  · unfold checkTransferConflicts
    simp only [List.mem_map, List.mem_filter]
    constructor
    · rintro ⟨fp, ⟨hmem, hre⟩, rfl⟩
      exact ⟨fp.2, hmem, by simpa using hre⟩
    · rintro ⟨p, hmem, hre⟩
      exact ⟨(f, p), ⟨hmem, by rw [hre]; rfl⟩, rfl⟩
  · unfold checkTransferConflicts
    simp only [List.map_map, List.mem_map, List.mem_filter,
      Function.comp_apply]
    constructor
    · rintro ⟨fp, ⟨hmem, hre⟩, rfl⟩
      exact ⟨fp.2, hmem, hre⟩
    · rintro ⟨p, hmem, hre⟩
      exact ⟨(f, p), ⟨hmem, hre⟩, rfl⟩

theorem transferTrace_eq (role : Role) (c : TransferCtx) (vo jo : Bool)
    (dD vD iD : String)
    (hdir : c.dirCreateOk = true)
    (hne : roleLocalFiles role c vo jo dD vD iD ≠ []) :
    transferTrace role c vo jo dD vD iD =
      TransferEv.conflictCheck
          ((roleLocalFiles role c vo jo dD vD iD).map Prod.fst) ::
        (if (roleReport role c vo jo dD vD iD).conflicts.isEmpty then
           transferRestEvents role c vo jo []
         else
           TransferEv.conflictPrompt (roleConflictNames role c vo jo dD vD iD) ::
             (match c.conflictChoice with
              | .cancel => []
              | .skipAll =>
                  transferRestEvents role c vo jo
                    (roleConflictNames role c vo jo dD vD iD)
              | .overrideAll => transferRestEvents role c vo jo [])) := by
  have hemp : (roleLocalFiles role c vo jo dD vD iD).isEmpty = false := by
    cases h : (roleLocalFiles role c vo jo dD vD iD).isEmpty with
    | false => rfl
    | true => exact absurd (List.isEmpty_iff.mp h) hne
  unfold transferTrace
  rw [hdir, hemp]
  rfl

end EldersVR


/-- C1: in every device transfer session (master or slave) with a non-empty
local file set that gets past directory creation, the conflict
classification runs exactly once, as the first event — before any push —
partitioning the local files into safe files (absent remotely by name) and
conflicts (present remotely by name, regardless of size), and at most one
resolution prompt occurs, always carrying the entire conflict set. -/
theorem C1_conflict_session (role : EldersVR.Role) (c : EldersVR.TransferCtx)
    (vo jo : Bool) (dD vD iD : String)
    (hdir : c.dirCreateOk = true)
    (hne : EldersVR.roleLocalFiles role c vo jo dD vD iD ≠ []) :
    (EldersVR.transferTrace role c vo jo dD vD iD).head? =
        some (EldersVR.TransferEv.conflictCheck
          ((EldersVR.roleLocalFiles role c vo jo dD vD iD).map Prod.fst)) ∧
    (EldersVR.transferTrace role c vo jo dD vD iD).countP
        EldersVR.TransferEv.isCheck = 1 ∧
    (EldersVR.transferTrace role c vo jo dD vD iD).countP
        EldersVR.TransferEv.isPrompt =
      (if (EldersVR.roleReport role c vo jo dD vD iD).conflicts.isEmpty
       then 0 else 1) ∧
    (∀ l, EldersVR.TransferEv.conflictPrompt l ∈
        EldersVR.transferTrace role c vo jo dD vD iD →
      l = EldersVR.roleConflictNames role c vo jo dD vD iD) ∧
    (∀ f, (f ∈ (EldersVR.roleReport role c vo jo dD vD iD).safe_files ↔
        ∃ p, (f, p) ∈ EldersVR.roleLocalFiles role c vo jo dD vD iD ∧
          c.remoteExists f = false) ∧
      (f ∈ EldersVR.roleConflictNames role c vo jo dD vD iD ↔
        ∃ p, (f, p) ∈ EldersVR.roleLocalFiles role c vo jo dD vD iD ∧
          c.remoteExists f = true)) := by
  have key := EldersVR.transferTrace_eq role c vo jo dD vD iD hdir hne
  refine ⟨?_, ?_, ?_, ?_, ?_⟩
  · rw [key]; rfl
  · rw [key, List.countP_cons]
    by_cases hconf :
        (EldersVR.roleReport role c vo jo dD vD iD).conflicts.isEmpty
    · rw [if_pos hconf, EldersVR.transferRestEvents_countP_check]
      rfl
    · rw [if_neg hconf, List.countP_cons]
      cases hc : c.conflictChoice <;>
        simp [EldersVR.transferRestEvents_countP_check,
          EldersVR.TransferEv.isCheck]
  · rw [key, List.countP_cons]
    by_cases hconf :
        (EldersVR.roleReport role c vo jo dD vD iD).conflicts.isEmpty
    · rw [if_pos hconf, if_pos hconf,
        EldersVR.transferRestEvents_countP_prompt]
      rfl
    · rw [if_neg hconf, if_neg hconf, List.countP_cons]
      cases hc : c.conflictChoice <;>
        simp [EldersVR.transferRestEvents_countP_prompt,
          EldersVR.TransferEv.isPrompt]
  · intro l hmem
    rw [key] at hmem
    rcases List.mem_cons.mp hmem with h | h
    · exact absurd h (by simp)
    · by_cases hconf :
          (EldersVR.roleReport role c vo jo dD vD iD).conflicts.isEmpty
      · rw [if_pos hconf] at h
        have h2 := (EldersVR.transferRestEvents_not_check_prompt
          role c vo jo [] _ h).2
        exact absurd h2 (by simp [EldersVR.TransferEv.isPrompt])
      · rw [if_neg hconf] at h
        rcases List.mem_cons.mp h with h3 | h3
        · exact (EldersVR.TransferEv.conflictPrompt.injEq _ _).mp h3
        · cases hc : c.conflictChoice <;> rw [hc] at h3
          · have h2 := (EldersVR.transferRestEvents_not_check_prompt
              role c vo jo _ _ h3).2
            exact absurd h2 (by simp [EldersVR.TransferEv.isPrompt])
          · have h2 := (EldersVR.transferRestEvents_not_check_prompt
              role c vo jo _ _ h3).2
            exact absurd h2 (by simp [EldersVR.TransferEv.isPrompt])
          · exact absurd h3 (List.not_mem_nil _)
  · intro f
    exact EldersVR.checkTransferConflicts_partition c.remoteExists
      c.localSize c.remoteSize
      (EldersVR.roleLocalFiles role c vo jo dD vD iD) f

/-- Witness for C1: a master session whose only local file is the manifest
file, which also exists remotely, runs exactly one conflict check. -/
theorem C1_conflict_session_witness :
    (EldersVR.transferTrace .master
      ⟨true, false, false, [], false, [], fun _ => true, fun _ => 1,
       fun _ => 2, true, .skipAll, fun _ => true⟩
      false false "d" "v" "i").countP EldersVR.TransferEv.isCheck = 1 :=
  (C1_conflict_session .master
    ⟨true, false, false, [], false, [], fun _ => true, fun _ => 1,
     fun _ => 2, true, .skipAll, fun _ => true⟩
    false false "d" "v" "i" rfl (by decide)).2.1
